import Mathlib

/-!
Verification development for the HTML editor deletion engine
(`editor/libeditor/HTMLEditorDeleteHandler.cpp`).

The definitions below are a shallow embedding of the decision logic of the
deletion handler.  Pure decision procedures of the C++ source are translated
into executable Lean functions; DOM state that the source reads through
external collaborators (layout visibility, `HTMLEditUtils`, `EditorUtils`,
the whitespace scanner) is represented by explicit oracle flags or function
parameters, documented case by case.  Error returns (`nsresult`,
`Result<T, nsresult>`) become `Except`/`Option` values.
-/

/-- Tags of the HTML elements that the deletion handler's decision logic
distinguishes. -/
inductive HTMLTag where
  | p | div | blockquote | pre
  | table | tbody | thead | tfoot | tr | td | th | caption | colgroup | col
  | html | htmlHead | body
  | br | hr | img
  | ol | ul | dl | li | dt | dd
  | h1 | h2 | h3 | h4 | h5 | h6
  | span
  deriving DecidableEq, Repr

/-- Shallow model of a DOM node.  `text` carries its UTF-16 code units and a
layout-oracle flag `visibleFrames` (whether `HTMLEditUtils::IsInVisibleTextFrames`
reports visible text frames for it).  `element` carries a layout-oracle flag
`visible` (used for invisible `<br>` detection, an external whitespace-scanner
judgement) and its children.  `otherData` stands for comment/PI nodes. -/
inductive DOMNode where
  | text (units : List Nat) (visibleFrames : Bool)
  | element (tag : HTMLTag) (editable : Bool) (visible : Bool) (children : List DOMNode)
  | otherData
  deriving Repr

/-- Modelled from the spec: `HTMLEditUtils::IsAnyTableElement` is not part of
src/; per the glossary a table-structural node is a "table, row, cell, or
caption equivalent element", i.e. the table skeleton tags. -/
def isAnyTableElementTag (t : HTMLTag) : Bool :=
  match t with
  | .table | .tbody | .thead | .tfoot | .tr | .td | .th | .caption => true
  | _ => false

/-- Modelled from the spec: `HTMLEditUtils::IsAnyTableElementButNotTable` is not
part of src/; by its name and use it holds exactly for the table-structural
tags other than `table` itself. -/
def isAnyTableElementButNotTableTag (t : HTMLTag) : Bool :=
  match t with
  | .tbody | .thead | .tfoot | .tr | .td | .th | .caption => true
  | _ => false

/-- Modelled from the spec: `HTMLEditUtils::IsListItem` is not part of src/;
list-item elements are `li`, `dt`, `dd`. -/
def isListItemTag (t : HTMLTag) : Bool :=
  match t with
  | .li | .dt | .dd => true
  | _ => false

/-- Modelled from the spec: `HTMLEditUtils::IsAnyListElement` is not part of
src/; list elements are `ol`, `ul`, `dl`. -/
def isAnyListElementTag (t : HTMLTag) : Bool :=
  match t with
  | .ol | .ul | .dl => true
  | _ => false

/-- The check `IsAnyOfHTMLElements(nsGkAtoms::html, nsGkAtoms::head,
nsGkAtoms::body)` from `AutoInclusiveAncestorBlockElementsJoiner::Prepare`:
top-level document-structure elements. -/
def isTopLevelStructureTag (t : HTMLTag) : Bool :=
  match t with
  | .html | .htmlHead | .body => true
  | _ => false

/-- Lift of `isAnyTableElementButNotTableTag` to nodes: false for text and
data nodes, as `HTMLEditUtils::IsAnyTableElementButNotTable` is on elements. -/
def isAnyTableElementButNotTableNode (n : DOMNode) : Bool :=
  match n with
  | .element t _ _ _ => isAnyTableElementButNotTableTag t
  | _ => false

mutual

/-- Shallow embedding of `AutoBlockElementsJoiner::DeleteContentButKeepTableStructure`
(HTMLEditorDeleteHandler.cpp:5619-5653).  If the content is not a
table-structural element other than `table` itself, it is deleted outright
(`DeleteNodeWithTransaction`), modelled as `none`.  Otherwise the node is kept
and every child is recursively processed the same way.  Error paths
(editor destroyed) are omitted: the function returns the surviving node. -/
def deleteContentButKeepTableStructure (n : DOMNode) : Option DOMNode :=
  if isAnyTableElementButNotTableNode n then
    match n with
    | .element t ed vis children =>
        some (.element t ed vis (deleteChildrenButKeepTableStructure children))
    | _ => none
  else none

/-- The child loop of `DeleteContentButKeepTableStructure`: each child is
processed recursively; children reported deleted disappear from the list. -/
def deleteChildrenButKeepTableStructure (l : List DOMNode) : List DOMNode :=
  match l with
  | [] => []
  | c :: rest =>
      match deleteContentButKeepTableStructure c with
      | none => deleteChildrenButKeepTableStructure rest
      | some c2 => c2 :: deleteChildrenButKeepTableStructure rest

end

mutual

/-- Modelled from the spec: `HTMLEditUtils::IsEmptyNode` with option
`TreatSingleBRElementAsVisible` is not part of src/.  Per the spec's glossary
an invisible node "contributes nothing to rendered output"; a text node is
empty iff layout reports no visible text frames, a `br`/`hr`/`img` element is
treated as visible content, and a container element is empty iff all its
children are. -/
def isEmptyNodeTreatBRVisible (n : DOMNode) : Bool :=
  match n with
  | .text _ vis => !vis
  | .otherData => true
  | .element .br _ _ _ => false
  | .element .hr _ _ _ => false
  | .element .img _ _ _ => false
  | .element _ _ _ children => allEmptyTreatBRVisible children

/-- Conjunction of `isEmptyNodeTreatBRVisible` over a child list. -/
def allEmptyTreatBRVisible (l : List DOMNode) : Bool :=
  match l with
  | [] => true
  | c :: rest => isEmptyNodeTreatBRVisible c && allEmptyTreatBRVisible rest

end

/-- Modelled from the spec: `HTMLEditUtils::IsInvisibleBRElement` is not part
of src/; it asks the whitespace scanner whether the `br` element contributes a
rendered line break, here carried by the element's `visible` oracle flag. -/
def isInvisibleBRElement (n : DOMNode) : Bool :=
  match n with
  | .element .br _ vis _ => !vis
  | _ => false

/-- One iteration of the content loop of
`NeedsToJoinNodesAfterDeleteNodesEntirelyInRangeButKeepTableStructure`
(HTMLEditorDeleteHandler.cpp:3600-3638): `true` iff this content makes the
loop return `false` (no join needed), i.e. the content is visible text, or a
non-empty element that is not an invisible `br`. -/
def contentBlocksJoin (n : DOMNode) : Bool :=
  match n with
  | .text _ vis => vis
  | .otherData => false
  | .element t ed vis children =>
      if isEmptyNodeTreatBRVisible (.element t ed vis children) then false
      else !isInvisibleBRElement (.element t ed vis children)

/-- Shallow embedding of `AutoBlockElementsJoiner::
NeedsToJoinNodesAfterDeleteNodesEntirelyInRangeButKeepTableStructure`
(HTMLEditorDeleteHandler.cpp:3600-3638).  `selectionWasCollapsed` is `true`
for `SelectionWasCollapsed::Yes`.  The source returns `true` immediately when
the original selection was NOT collapsed, `true` for an empty content array,
`false` at the first content that is visible text or a non-empty non-invisible-br
element, and `true` otherwise. -/
def needsToJoinNodesAfterDelete (selectionWasCollapsed : Bool)
    (contents : List DOMNode) : Bool :=
  if selectionWasCollapsed = false then true
  else if contents.isEmpty then true
  else !(contents.any contentBlocksJoin)

/-- Definition following the SPEC's words, for comparison with the source's
`needsToJoinNodesAfterDelete` (refinement check for claim C3): the spec says
the flag is true unless the original selection started non-collapsed AND every
collected node was invisible whitespace-only text or an invisible line-break. -/
def needsToJoinPerSpec (selectionWasCollapsed : Bool)
    (contents : List DOMNode) : Bool :=
  !(selectionWasCollapsed = false &&
    contents.all (fun n =>
      (match n with
       | .text _ vis => !vis
       | _ => false) || isInvisibleBRElement n))

/-- Error codes of the editor (`nsresult` values used by the handler). -/
inductive EditorErr where
  | failure
  | unexpected
  | unexpectedTreeState
  | editorDestroyed
  | noEditableRange
  deriving DecidableEq, Repr

/-- Identity of an element used by the ancestor block joiner: a node id (for
pointer-identity comparisons such as `GetParentNode() == mLeftBlockElement`)
and its tag. -/
structure PElem where
  idn : Nat
  tag : HTMLTag
  deriving DecidableEq, Repr

/-- Result state of `AutoInclusiveAncestorBlockElementsJoiner::Prepare`:
`canJoinThem` is the `Result<bool, nsresult>` Ok value returned to the caller
(`false` cancels the surrounding deletion), `mCanJoinBlocks` is the member
consulted by `CanJoinBlocks()` before running the join, and
`leftBlock`/`rightBlock` are the (possibly retargeted) block elements. -/
structure AncestorJoinerPrepared where
  canJoinThem : Bool
  mCanJoinBlocks : Bool
  leftBlock : PElem
  rightBlock : PElem
  deriving DecidableEq, Repr

/-- Shallow embedding of `AutoInclusiveAncestorBlockElementsJoiner::Prepare`
(HTMLEditorDeleteHandler.cpp:4496-4654).  `parentOf` models
`GetParentNode`/`GetParentElement` (external DOM accessors, assumed to agree
here) and `isDescendantOf d a` models `EditorUtils::IsDescendantOf(d, a)`
(external).  `l`/`r` are the already computed closest editable block ancestors
of the two sides (`GetInclusiveAncestorElement` with
`ClosestEditableBlockElementExceptHRElement`, external).  Fields
`mPointContainingTheOtherBlockElement`, `mPrecedingInvisibleBRElement` and
`mFallbackToDeleteLeafContent`, which only tune the later run, are omitted. -/
def inclusiveAncestorJoinerPrepare (parentOf : Nat → Option PElem)
    (isDescendantOf : Nat → Nat → Bool) (l r : PElem) : AncestorJoinerPrepared :=
  if isTopLevelStructureTag l.tag && isTopLevelStructureTag r.tag then
    ⟨false, false, l, r⟩
  else if isAnyTableElementTag l.tag || isAnyTableElementTag r.tag then
    ⟨false, false, l, r⟩
  else if l = r then
    ⟨true, true, l, r⟩
  else if isAnyListElementTag l.tag && isListItemTag r.tag &&
          parentOf r.idn = some l then
    ⟨true, false, l, r⟩
  else if isListItemTag l.tag && isListItemTag r.tag then
    match parentOf l.idn, parentOf r.idn with
    | some leftListElement, some rightListElement =>
        if leftListElement.idn ≠ rightListElement.idn &&
           !isDescendantOf leftListElement.idn r.idn &&
           !isDescendantOf rightListElement.idn l.idn then
          ⟨true, true, leftListElement, rightListElement⟩
        else ⟨true, true, l, r⟩
    | _, _ => ⟨true, true, l, r⟩
  else ⟨true, true, l, r⟩

/-- Outcome of `AutoBlockElementsJoiner::HandleDeleteNonCollapsedRanges`
(HTMLEditorDeleteHandler.cpp:3736-3862) in `DeleteNonCollapsedRanges` mode.
`deletedOutright` lists the collected top-level nodes that
`DeleteContentButKeepTableStructure` removed entirely; `prepareInvoked` is
whether the ancestor joiner's `Prepare` ran; `joinExecuted` is whether
`joiner.Run` was reached; `canceled`/`handled` are the `EditActionResult`
flags at return. -/
structure NonCollapsedDeleteOutcome where
  deletedOutright : List DOMNode
  prepareInvoked : Bool
  joinExecuted : Bool
  canceled : Bool
  handled : Bool
  deriving Repr

/-- Shallow embedding of the success path of
`AutoBlockElementsJoiner::HandleDeleteNonCollapsedRanges`
(HTMLEditorDeleteHandler.cpp:3736-3862).  Each range is a list of the
top-level nodes the subtree iterator collected entirely inside it.  The body
first deletes the collected nodes of EVERY range (keeping table structure) and
the boundary text, accumulating each range's needs-join flag with `&=`; only
then, if all flags were true, `AutoInclusiveAncestorBlockElementsJoiner::
Prepare` runs, and `canJoinThem = false` marks the result canceled.  In every
non-error exit the result is finally marked handled and
`DeleteUnnecessaryNodesAndCollapseSelection` collapses the selection.  Error
short-circuits (destroyed editor) are omitted. -/
def handleDeleteNonCollapsedRangesJoiner (selectionWasCollapsed : Bool)
    (ranges : List (List DOMNode)) (parentOf : Nat → Option PElem)
    (isDescendantOf : Nat → Nat → Bool) (leftContent rightContent : PElem) :
    NonCollapsedDeleteOutcome :=
  let deleted := ranges.flatten.filter
    (fun n => (deleteContentButKeepTableStructure n).isNone)
  let joinAll := ranges.all (fun l => needsToJoinNodesAfterDelete selectionWasCollapsed l)
  if !joinAll then
    ⟨deleted, false, false, false, true⟩
  else
    let prepared := inclusiveAncestorJoinerPrepare parentOf isDescendantOf
      leftContent rightContent
    if !prepared.canJoinThem then
      ⟨deleted, true, false, true, true⟩
    else if !prepared.mCanJoinBlocks then
      ⟨deleted, true, false, false, true⟩
    else
      ⟨deleted, true, true, false, true⟩

/-- High (leading) UTF-16 surrogate test, `NS_IS_HIGH_SURROGATE`. -/
def isHighSurrogate (u : Nat) : Bool := 0xD800 ≤ u && u ≤ 0xDBFF

/-- Low (trailing) UTF-16 surrogate test, `NS_IS_LOW_SURROGATE`. -/
def isLowSurrogate (u : Nat) : Bool := 0xDC00 ≤ u && u ≤ 0xDFFF

/-- Modelled from the spec: `nsTextFragment::IsLowSurrogateFollowingHighSurrogateAt`
is not part of src/; by its name it holds iff the code unit at `i` is a low
surrogate and the one at `i - 1` is a high surrogate (requiring `0 < i` and
`i` in bounds). -/
def isLowSurrogateFollowingHighSurrogateAt (units : List Nat) (i : Nat) : Bool :=
  0 < i && i < units.length &&
  isLowSurrogate (units.getD i 0) && isHighSurrogate (units.getD (i - 1) 0)

/-- The backward-deletion offset computation of
`AutoDeleteRangesHandler::HandleDeleteCollapsedSelectionAtVisibleChar`
(HTMLEditorDeleteHandler.cpp:2101-2172), `ePrevious` case: `startToDelete` is
the point before the caret, rewound once more when the two code units before
the caret form a surrogate pair; `endToDelete` is the caret.  A caret at the
start of the text node is the source's `NS_ERROR_UNEXPECTED`. -/
def computeBackwardVisibleCharDeleteOffsets (units : List Nat)
    (caretOffset : Nat) : Except EditorErr (Nat × Nat) :=
  if caretOffset = 0 then .error .unexpected
  else
    let start0 := caretOffset - 1
    let start :=
      if start0 ≠ 0 && isLowSurrogateFollowingHighSurrogateAt units start0 then
        start0 - 1
      else start0
    .ok (start, caretOffset)

/-- Model of `DeleteTextWithTransaction(node, offset, length)` on the code-unit list:
removes `len` units starting at `start` (external tree-mutation primitive,
modelled directly on the unit list). -/
def deleteTextRange (units : List Nat) (start len : Nat) : List Nat :=
  units.take start ++ units.drop (start + len)

/-- Composition performed by `HandleDeleteCollapsedSelectionAtVisibleChar` for
a backward delete: compute the offsets, then delete `endToDelete - startToDelete`
units at `startToDelete` in one `DeleteTextWithTransaction` call.  The
surrounding-whitespace adjustment (`WhiteSpaceVisibilityKeeper::
PrepareToDeleteRangeAndTrackPoints`, external, not in src/) is modelled as the
identity, which is its behavior when the deleted character is not adjacent to
collapsible whitespace. -/
def handleDeleteBackwardVisibleChar (units : List Nat) (caretOffset : Nat) :
    Except EditorErr (List Nat) :=
  match computeBackwardVisibleCharDeleteOffsets units caretOffset with
  | .error e => .error e
  | .ok (s, e) => .ok (deleteTextRange units s (e - s))

/-- Logical deletion direction, `nsIEditor::EDirection` (the amounts that the
handler distinguishes). -/
inductive EDirection where
  | eNone | ePrevious | eNext
  deriving DecidableEq, Repr

/-- Interline caret bias, `Selection::GetInterlinePosition`. -/
inductive InterlinePosition where
  | undefined | startOfLine | endOfLine
  deriving DecidableEq, Repr

/-- Shallow embedding of `AutoDeleteRangesHandler::ShouldDeleteHRElement`
(HTMLEditorDeleteHandler.cpp:2224-2266).  `allowFromFollowingLine` is the
pref `editor.hr_element.allow_to_delete_from_following_line`;
`caretInParentOfHR` models `aCaretPoint.GetContainer() ==
atHRElement.GetContainer()` (the caret's container is the `<hr>`'s parent).
The offset comparison `aCaretPoint.Offset() - 1 == atHRElement.Offset()` is
on `uint32_t`, kept as arithmetic modulo `2 ^ 32`. -/
def shouldDeleteHRElement (allowFromFollowingLine : Bool) (dir : EDirection)
    (interline : InterlinePosition) (caretInParentOfHR : Bool)
    (caretOffset hrOffset : Nat) : Except EditorErr Bool :=
  if allowFromFollowingLine then .ok true
  else if dir ≠ EDirection.ePrevious then .ok true
  else if interline = InterlinePosition.undefined then .error .failure
  else .ok (decide (interline = InterlinePosition.endOfLine) &&
            caretInParentOfHR &&
            decide ((caretOffset + (2 ^ 32 - 1)) % 2 ^ 32 = hrOffset % 2 ^ 32))

/-- What `AutoDeleteRangesHandler::HandleDeleteHRElement` ends up doing. -/
inductive HRDeleteAction where
  | deleteHRElementAsAtomicContent
  | moveCaretAfterHRElement (deleteFollowingBRElement : Bool)
  deriving DecidableEq, Repr

/-- Shallow embedding of `AutoDeleteRangesHandler::HandleDeleteHRElement`
(HTMLEditorDeleteHandler.cpp:2316-2392).  When `ShouldDeleteHRElement` says
yes, the `<hr>` is deleted as atomic content; otherwise the selection is
collapsed to just after the `<hr>` with `EndOfLine` interline position and,
when the forward scan from the caret reaches a `br` element
(`forwardScanReachesBRElement`, whitespace-scanner oracle), that `br` is
deleted too. -/
def handleDeleteHRElement (allowFromFollowingLine : Bool) (dir : EDirection)
    (interline : InterlinePosition) (caretInParentOfHR : Bool)
    (caretOffset hrOffset : Nat) (forwardScanReachesBRElement : Bool) :
    Except EditorErr HRDeleteAction :=
  match shouldDeleteHRElement allowFromFollowingLine dir interline
      caretInParentOfHR caretOffset hrOffset with
  | .error e => .error e
  | .ok true => .ok .deleteHRElementAsAtomicContent
  | .ok false => .ok (.moveCaretAfterHRElement forwardScanReachesBRElement)

/-- Decision-relevant state of the invisible-`<br>` branch of
`AutoDeleteRangesHandler::Run` (HTMLEditorDeleteHandler.cpp:1601-1675), i.e.
the branch entered when the collapsed-caret scan reached a `br` element.
`rescanFails` / `rescanReachesInvisibleBRElement` describe the guard scan from
the new caret that the source performs only when
`MayHaveMutationEventListeners(...)` holds. -/
structure InvisibleBRBranchInput where
  brIsEditingHost : Bool
  brIsEditable : Bool
  brIsInvisible : Bool
  selectionRangeCountAfterDeleteIsOne : Bool
  newCaretPointIsSet : Bool
  mayHaveMutationEventListeners : Bool
  rescanFails : Bool
  rescanReachesInvisibleBRElement : Bool
  deriving DecidableEq, Repr

/-- Outcome of the reached-`br` branch of `AutoDeleteRangesHandler::Run`.
`deleteBRElementAndRunNestedHandler` means the invisible `br` was deleted and
a nested `AutoDeleteRangesHandler` was constructed and `Run` again from the
new caret position. -/
inductive CollapsedBRScanOutcome where
  | handled
  | canceled
  | err (e : EditorErr)
  | deleteBRElementAndRunNestedHandler
  | fallThroughToHandleDeleteAroundCollapsedRanges
  deriving DecidableEq, Repr

/-- Shallow embedding of the reached-`br` branch of
`AutoDeleteRangesHandler::Run` (HTMLEditorDeleteHandler.cpp:1601-1675), with
the checks in source order: editing-host `br` is handled, non-editable `br`
cancels, a visible `br` falls through to `HandleDeleteAroundCollapsedRanges`;
for an invisible `br` the node is deleted, the selection must be a single
range and the new caret set, and only when the editor may have mutation event
listeners the handler re-scans from the new caret, failing with
`unexpectedTreeState` if that scan again reaches an invisible `br`; otherwise
it recurses into a nested handler. -/
def runReachedBRElementBranch (inp : InvisibleBRBranchInput) :
    CollapsedBRScanOutcome :=
  if inp.brIsEditingHost then .handled
  else if !inp.brIsEditable then .canceled
  else if !inp.brIsInvisible then .fallThroughToHandleDeleteAroundCollapsedRanges
  else if !inp.selectionRangeCountAfterDeleteIsOne then .err .unexpectedTreeState
  else if !inp.newCaretPointIsSet then .err .failure
  else if inp.mayHaveMutationEventListeners then
    if inp.rescanFails then .err .failure
    else if inp.rescanReachesInvisibleBRElement then .err .unexpectedTreeState
    else .deleteBRElementAndRunNestedHandler
  else .deleteBRElementAndRunNestedHandler

/-- One block element on the chain of closest-editable-block ancestors walked
by `AutoEmptyBlockAncestorDeleter::ScanEmptyBlockInclusiveAncestor`
(HTMLEditorDeleteHandler.cpp:5710-5750).  The flags are the external
`HTMLEditUtils` judgements on that element (`IsRemovableFromParentNode`,
`IsAnyTableElement`, `IsEmptyNode`, `IsEditable`, `GetParentElement`). -/
structure BlockCandidate where
  editable : Bool
  removableFromParent : Bool
  anyTableElement : Bool
  emptyNode : Bool
  hasParentElement : Bool
  deriving DecidableEq, Repr

/-- The loop condition of `ScanEmptyBlockInclusiveAncestor`: the block is
removable, not a table-structural element, and empty. -/
def emptyBlockLoopCond (b : BlockCandidate) : Bool :=
  b.removableFromParent && !b.anyTableElement && b.emptyNode

/-- The climb loop of `ScanEmptyBlockInclusiveAncestor`: while the current
ancestor satisfies the condition, remember it and move to the next
closest-editable-block ancestor; on the first failure keep the last one
remembered. -/
def scanEmptyBlockLoop (chain : List BlockCandidate)
    (found : Option BlockCandidate) : Option BlockCandidate :=
  match chain with
  | [] => found
  | b :: ancestors =>
      if emptyBlockLoopCond b then scanEmptyBlockLoop ancestors (some b)
      else found

/-- Shallow embedding of `AutoEmptyBlockAncestorDeleter::
ScanEmptyBlockInclusiveAncestor` (HTMLEditorDeleteHandler.cpp:5710-5750).
`chain` is the chain of closest-editable-block inclusive ancestors of the
start content, innermost first (computed by `HTMLEditUtils::
GetInclusiveAncestorElement` / `GetAncestorElement` with
`ClosestEditableBlockElement`, external to src/); it is finite because each
step strictly climbs the tree.  After the loop, the found element is dropped
again if it is not editable or has no parent element. -/
def scanEmptyBlockInclusiveAncestor (chain : List BlockCandidate) :
    Option BlockCandidate :=
  match scanEmptyBlockLoop chain none with
  | none => none
  | some found =>
      if !found.editable || !found.hasParentElement then none else some found

/-- Shallow embedding of the mutation performed by
`AutoEmptyBlockAncestorDeleter::Run` (HTMLEditorDeleteHandler.cpp:5943-5992):
whatever the caret bookkeeping does, the only node removal is the single
`DeleteNodeWithTransaction(*mEmptyInclusiveAncestorBlockElement)` call, so
the deletion list is the scanned element alone (its whole subtree, nested
empty ancestors included, leaves the document with it). -/
def emptyBlockAncestorDeleterRun (chain : List BlockCandidate) :
    List BlockCandidate :=
  match scanEmptyBlockInclusiveAncestor chain with
  | none => []
  | some b => [b]

/-- Result codes of `EditActionResult` that the entry points return. -/
inductive EditActionRes where
  | canceled | handled | ignored
  deriving DecidableEq, Repr

/-- Editor state read by the entry-point guards of
`HTMLEditor::HandleDeleteSelection` (HTMLEditorDeleteHandler.cpp:1114-1186). -/
structure EditorEnv where
  selectionRangeCount : Nat
  editingHostExists : Bool
  documentIsEmpty : Bool
  inTableCellSelectionMode : Bool
  editableRangesEmptyAfterRestrict : Bool
  deriving DecidableEq, Repr

/-- Shallow embedding of the guard sequence of
`HTMLEditor::HandleDeleteSelection` (HTMLEditorDeleteHandler.cpp:1114-1186).
The pair carried by `.ok` is the `EditActionResult` code together with a
document-mutated flag.  `tableCellResult` and `runResult` abstract the two
delegated computations (`DeleteTableCellContentsWithTransaction` and
`AutoDeleteRangesHandler::Run` with what follows), which are reached only
after all guards pass. -/
def handleDeleteSelectionEntry (env : EditorEnv)
    (tableCellResult runResult : Except EditorErr (EditActionRes × Bool)) :
    Except EditorErr (EditActionRes × Bool) :=
  if env.selectionRangeCount = 0 then .error .noEditableRange
  else if !env.editingHostExists then .error .noEditableRange
  else if env.documentIsEmpty then .ok (.canceled, false)
  else if env.inTableCellSelectionMode then tableCellResult
  else if env.editableRangesEmptyAfterRestrict then .error .noEditableRange
  else runResult

/-- Shallow embedding of the entry guard of `AutoDeleteRangesHandler::Run`
(HTMLEditorDeleteHandler.cpp:1432-1446): after recording direction and
strip-wrappers, an empty editor returns `CanceledResult()` before any
scanning or mutation; `rest` abstracts the remainder of `Run`. -/
def autoDeleteRangesHandlerRunEntry (documentIsEmpty : Bool)
    (rest : Except EditorErr (EditActionRes × Bool)) :
    Except EditorErr (EditActionRes × Bool) :=
  if documentIsEmpty then .ok (.canceled, false) else rest

/-- C10: on an editor whose document is empty, both the public
`HandleDeleteSelection` entry (given that the selection has a range and an
editing host exists, which the source checks first and reports as errors
otherwise) and every `AutoDeleteRangesHandler::Run` invocation return the
canceled result before any table-cell handling, range restriction, scanning
or mutation, leaving the document unchanged. -/
theorem handleDeleteSelection_emptyDocumentCanceled (env : EditorEnv)
    (tableCellResult runResult rest : Except EditorErr (EditActionRes × Bool))
    (hEmpty : env.documentIsEmpty = true)
    (hRanges : env.selectionRangeCount ≠ 0)
    (hHost : env.editingHostExists = true) :
    handleDeleteSelectionEntry env tableCellResult runResult =
      .ok (.canceled, false) ∧
    autoDeleteRangesHandlerRunEntry true rest = .ok (.canceled, false) := by
  constructor
  · unfold handleDeleteSelectionEntry
    simp [hEmpty, hRanges, hHost]
  · unfold autoDeleteRangesHandlerRunEntry
    simp

/-- Witness for C10: concrete empty-document editor state. -/
theorem handleDeleteSelection_emptyDocumentCanceled_witness :
    handleDeleteSelectionEntry ⟨1, true, true, false, false⟩
        (.ok (.handled, true)) (.ok (.handled, true)) = .ok (.canceled, false) ∧
    autoDeleteRangesHandlerRunEntry true (.ok (.handled, true)) =
      .ok (.canceled, false) :=
  handleDeleteSelection_emptyDocumentCanceled ⟨1, true, true, false, false⟩
    (.ok (.handled, true)) (.ok (.handled, true)) (.ok (.handled, true))
    rfl (by decide) rfl

/-- Counterexample for C4: with an editable invisible `br` (not the editing
host), a single selection range and a valid new caret, but NO mutation event
listeners, the source recurses into a nested handler even though a scan from
the new caret would again reach an invisible `br`
(`rescanReachesInvisibleBRElement = true`); the claimed unconditional
`UnexpectedTreeState` failure does not happen. -/
theorem runReachedBRElementBranch_counterexample :
    runReachedBRElementBranch ⟨false, true, true, true, true, false, false, true⟩ =
      .deleteBRElementAndRunNestedHandler ∧
    CollapsedBRScanOutcome.deleteBRElementAndRunNestedHandler ≠
      CollapsedBRScanOutcome.err .unexpectedTreeState := by
  exact ⟨rfl, by decide⟩

/-- C4 (amended): after deleting the invisible `br`, the
`UnexpectedTreeState` guard against a reappearing invisible line-break runs
only when the editor may have mutation event listeners; without such
listeners the handler always re-runs a nested instance (which may itself
recurse on a further invisible break), and with listeners it fails with
`UnexpectedTreeState` exactly when the re-scan reaches an invisible `br`. -/
theorem runReachedBRElementBranch_amended (inp : InvisibleBRBranchInput)
    (h1 : inp.brIsEditingHost = false) (h2 : inp.brIsEditable = true)
    (h3 : inp.brIsInvisible = true)
    (h4 : inp.selectionRangeCountAfterDeleteIsOne = true)
    (h5 : inp.newCaretPointIsSet = true) :
    runReachedBRElementBranch inp =
      if inp.mayHaveMutationEventListeners then
        (if inp.rescanFails then .err .failure
         else if inp.rescanReachesInvisibleBRElement then .err .unexpectedTreeState
         else .deleteBRElementAndRunNestedHandler)
      else .deleteBRElementAndRunNestedHandler := by
  unfold runReachedBRElementBranch
  simp [h1, h2, h3, h4, h5]

/-- Witness for the amended C4: with listeners present and the re-scan
reaching an invisible `br`, the branch fails with `UnexpectedTreeState`. -/
theorem runReachedBRElementBranch_amended_witness :
    runReachedBRElementBranch ⟨false, true, true, true, true, true, false, true⟩ =
      if true then
        (if false then .err .failure
         else if true then .err .unexpectedTreeState
         else .deleteBRElementAndRunNestedHandler)
      else CollapsedBRScanOutcome.deleteBRElementAndRunNestedHandler :=
  runReachedBRElementBranch_amended
    ⟨false, true, true, true, true, true, false, true⟩ rfl rfl rfl rfl rfl

/-- Counterexample for C3: the source's needs-join flag is the reverse of the
claim on both conjuncts.  For a selection that started NON-collapsed whose
only collected node is an invisible `br`, the claim predicts `needsJoin =
false` but the source returns `true`; for a selection that started collapsed
whose collected node is visible text, the claim predicts `true` but the
source returns `false`. -/
theorem needsToJoinNodesAfterDelete_counterexample :
    needsToJoinNodesAfterDelete false [DOMNode.element .br true false []] = true ∧
    needsToJoinPerSpec false [DOMNode.element .br true false []] = false ∧
    needsToJoinNodesAfterDelete true [DOMNode.text [120] true] = false ∧
    needsToJoinPerSpec true [DOMNode.text [120] true] = true := by
  refine ⟨?_, ?_, ?_, ?_⟩ <;> rfl

/-- C3 (amended): the per-range flag is true unless the original selection
started COLLAPSED (ranges caret-derived) and at least one collected node was
visible (visible text, or a non-empty element other than an invisible `br`);
and across multiple ranges the ancestor-block join preparation is reached only
when every range's flag was true, so visible content removed in any
caret-derived range suppresses the final join rather than forcing it. -/
theorem needsToJoinNodesAfterDelete_amended :
    (∀ (selectionWasCollapsed : Bool) (contents : List DOMNode),
      needsToJoinNodesAfterDelete selectionWasCollapsed contents =
        (!selectionWasCollapsed || !(contents.any contentBlocksJoin))) ∧
    (∀ (selectionWasCollapsed : Bool) (ranges : List (List DOMNode))
        (parentOf : Nat → Option PElem) (isDescendantOf : Nat → Nat → Bool)
        (leftContent rightContent : PElem),
      (handleDeleteNonCollapsedRangesJoiner selectionWasCollapsed ranges
          parentOf isDescendantOf leftContent rightContent).prepareInvoked =
        ranges.all (fun l => needsToJoinNodesAfterDelete selectionWasCollapsed l)) := by
  constructor
  · intro c contents
    cases c with
    | false => simp [needsToJoinNodesAfterDelete]
    | true =>
        cases contents with
        | nil => simp [needsToJoinNodesAfterDelete]
        | cons a l => simp [needsToJoinNodesAfterDelete]
  · intro c ranges parentOf isDescendantOf lC rC
    unfold handleDeleteNonCollapsedRangesJoiner
    by_cases h : ranges.all (fun l => needsToJoinNodesAfterDelete c l) = true
    · simp only [h]
      split_ifs <;> simp_all
    · simp only [Bool.not_eq_true] at h
      simp [h]

/-- C5: when the two code units immediately before the caret form a surrogate
pair (high surrogate then low surrogate), a backward visible-character delete
removes both code units in the single text deletion: the resulting content is
the text with exactly the two units before the caret removed, two shorter than
the original, never just one unit. -/
theorem handleDeleteBackwardVisibleChar_surrogatePair (units : List Nat)
    (caretOffset : Nat) (hle : caretOffset ≤ units.length)
    (h2 : 2 ≤ caretOffset)
    (hhigh : isHighSurrogate (units.getD (caretOffset - 2) 0) = true)
    (hlow : isLowSurrogate (units.getD (caretOffset - 1) 0) = true) :
    handleDeleteBackwardVisibleChar units caretOffset =
      .ok (units.take (caretOffset - 2) ++ units.drop caretOffset) ∧
    (units.take (caretOffset - 2) ++ units.drop caretOffset).length =
      units.length - 2 := by
  have hne : caretOffset ≠ 0 := by omega
  have hstart : caretOffset - 1 ≠ 0 := by omega
  have h21 : caretOffset - 1 - 1 = caretOffset - 2 := by omega
  have hpair : isLowSurrogateFollowingHighSurrogateAt units (caretOffset - 1) = true := by
    unfold isLowSurrogateFollowingHighSurrogateAt
    rw [h21]
    have h1 : 0 < caretOffset - 1 := by omega
    have hlt : caretOffset - 1 < units.length := by omega
    simp only [Bool.and_eq_true, decide_eq_true_eq]
    exact ⟨⟨⟨h1, hlt⟩, hlow⟩, hhigh⟩
  constructor
  · unfold handleDeleteBackwardVisibleChar computeBackwardVisibleCharDeleteOffsets
    have hlen : caretOffset - 2 + (caretOffset - (caretOffset - 2)) = caretOffset := by
      omega
    simp [hne, hstart, hpair, deleteTextRange, h21, hlen]
  · have htake : (units.take (caretOffset - 2)).length = caretOffset - 2 := by
      simp [List.length_take]
      omega
    have hdrop : (units.drop caretOffset).length = units.length - caretOffset := by
      simp [List.length_drop]
    simp only [List.length_append, htake, hdrop]
    omega

/-- Witness for C5: deleting backward after the surrogate pair U+1F600
(`0xD83D 0xDE00`) removes both code units. -/
theorem handleDeleteBackwardVisibleChar_surrogatePair_witness :
    handleDeleteBackwardVisibleChar [0xD83D, 0xDE00] 2 =
      .ok (([0xD83D, 0xDE00] : List Nat).take (2 - 2) ++
        ([0xD83D, 0xDE00] : List Nat).drop 2) ∧
    (([0xD83D, 0xDE00] : List Nat).take (2 - 2) ++
      ([0xD83D, 0xDE00] : List Nat).drop 2).length =
      ([0xD83D, 0xDE00] : List Nat).length - 2 :=
  handleDeleteBackwardVisibleChar_surrogatePair [0xD83D, 0xDE00] 2
    (by decide) (by decide) (by decide) (by decide)

/-- C6: for a backward (`ePrevious`) deletion reaching an `<hr>` element when
the pref does not allow deleting it from the following line (and the interline
position is defined, so no scan failure), the `<hr>` is deleted exactly when
the caret sits in the `<hr>`'s parent at the offset immediately after the
`<hr>` with end-of-line interline bias; in every other such case the caret is
only moved to just after the `<hr>` and the trailing `br`, if the forward scan
from the caret reaches one, is deleted with it.  The offset bounds reflect
valid `uint32_t` DOM offsets. -/
theorem handleDeleteHRElement_backwardRule (interline : InterlinePosition)
    (caretInParentOfHR : Bool) (caretOffset hrOffset : Nat)
    (forwardScanReachesBRElement : Bool)
    (hDefined : interline ≠ InterlinePosition.undefined)
    (hCaretBound : caretOffset < 2 ^ 32) (hHRBound : hrOffset + 1 < 2 ^ 32) :
    (handleDeleteHRElement false .ePrevious interline caretInParentOfHR
        caretOffset hrOffset forwardScanReachesBRElement =
      .ok .deleteHRElementAsAtomicContent ↔
      (interline = .endOfLine ∧ caretInParentOfHR = true ∧
        caretOffset = hrOffset + 1)) ∧
    (¬(interline = .endOfLine ∧ caretInParentOfHR = true ∧
        caretOffset = hrOffset + 1) →
      handleDeleteHRElement false .ePrevious interline caretInParentOfHR
          caretOffset hrOffset forwardScanReachesBRElement =
        .ok (.moveCaretAfterHRElement forwardScanReachesBRElement)) := by
  have h32 : (2 : Nat) ^ 32 = 4294967296 := by norm_num
  have hmod : ((caretOffset + (2 ^ 32 - 1)) % 2 ^ 32 = hrOffset % 2 ^ 32) ↔
      caretOffset = hrOffset + 1 := by
    rw [h32] at hCaretBound hHRBound ⊢
    omega
  unfold handleDeleteHRElement shouldDeleteHRElement
  cases interline with
  | undefined => exact absurd rfl hDefined
  | startOfLine => simp
  | endOfLine =>
      cases caretInParentOfHR with
      | false => simp
      | true =>
          by_cases hco : caretOffset = hrOffset + 1
          · rw [decide_eq_true (hmod.mpr hco)]
            simp [hco]
          · rw [decide_eq_false (fun h => hco (hmod.mp h))]
            simp [hco]

/-- Witness for C6: caret in the `<hr>`'s parent at offset 3, `<hr>` at
offset 2, end-of-line bias, backward delete with the pref off. -/
theorem handleDeleteHRElement_backwardRule_witness :
    (handleDeleteHRElement false .ePrevious .endOfLine true 3 2 false =
      .ok .deleteHRElementAsAtomicContent ↔
      (InterlinePosition.endOfLine = .endOfLine ∧ true = true ∧ 3 = 2 + 1)) ∧
    (¬(InterlinePosition.endOfLine = .endOfLine ∧ true = true ∧ 3 = 2 + 1) →
      handleDeleteHRElement false .ePrevious .endOfLine true 3 2 false =
        .ok (.moveCaretAfterHRElement false)) :=
  handleDeleteHRElement_backwardRule .endOfLine true 3 2 false (by decide)
    (by norm_num) (by norm_num)

/-- C7: the feasibility verdict returned by
`AutoInclusiveAncestorBlockElementsJoiner::Prepare` is `false` (the "cannot
join" report that cancels the surrounding delete) exactly when either
computed block is a table-structural element or both computed blocks are
top-level document-structure elements (`html`/`head`/`body`); and whenever it
reports `false`, `mCanJoinBlocks` is also `false`, so no join is performed. -/
theorem inclusiveAncestorJoinerPrepare_refusesExactlyTableOrTopLevel
    (parentOf : Nat → Option PElem) (isDescendantOf : Nat → Nat → Bool)
    (l r : PElem) :
    (inclusiveAncestorJoinerPrepare parentOf isDescendantOf l r).canJoinThem =
      !((isTopLevelStructureTag l.tag && isTopLevelStructureTag r.tag) ||
        isAnyTableElementTag l.tag || isAnyTableElementTag r.tag) ∧
    ((inclusiveAncestorJoinerPrepare parentOf isDescendantOf l r).canJoinThem ||
      !(inclusiveAncestorJoinerPrepare parentOf isDescendantOf l r).mCanJoinBlocks) =
      true := by
  unfold inclusiveAncestorJoinerPrepare
  split_ifs with h1 h2 h3 h4 h5
  · simp_all
  · rw [Bool.or_eq_true] at h2
    rcases h2 with h2 | h2 <;> simp_all
  · by_cases hl : isTopLevelStructureTag l.tag = true <;> simp_all
  · by_cases hl : isTopLevelStructureTag l.tag = true <;> simp_all
  · rcases hpl : parentOf l.idn with _ | pl <;>
      rcases hpr : parentOf r.idn with _ | pr <;>
      by_cases hl : isTopLevelStructureTag l.tag = true <;>
      simp_all <;>
      (try split_ifs) <;>
      (try simp_all)
  · by_cases hl : isTopLevelStructureTag l.tag = true <;> simp_all

/-- C8: the block joiner's list special cases.  First: if the two blocks are
list items whose parent (list) elements exist, are different, and neither
parent is a descendant of the other item, `Prepare` retargets the join to the
two parent list elements (the lists are joined instead of the items) and
reports the join possible.  Second: if the left block is a list element and
the right block is a list item whose direct parent is that very list element
(hence a distinct node from it, as a DOM element never parents itself), the
join is prepared as a no-op: the verdict is "can join" but `mCanJoinBlocks`
is `false`, so nothing is changed. -/
theorem inclusiveAncestorJoinerPrepare_listSpecialCases :
    (∀ (parentOf : Nat → Option PElem) (isDescendantOf : Nat → Nat → Bool)
        (l r pl pr : PElem),
      isListItemTag l.tag = true → isListItemTag r.tag = true →
      parentOf l.idn = some pl → parentOf r.idn = some pr →
      pl.idn ≠ pr.idn →
      isDescendantOf pl.idn r.idn = false →
      isDescendantOf pr.idn l.idn = false →
      inclusiveAncestorJoinerPrepare parentOf isDescendantOf l r =
        ⟨true, true, pl, pr⟩) ∧
    (∀ (parentOf : Nat → Option PElem) (isDescendantOf : Nat → Nat → Bool)
        (l r : PElem),
      isAnyListElementTag l.tag = true → isListItemTag r.tag = true →
      l ≠ r → parentOf r.idn = some l →
      inclusiveAncestorJoinerPrepare parentOf isDescendantOf l r =
        ⟨true, false, l, r⟩) := by
  constructor
  · intro parentOf isDescendantOf l r pl pr hl hr hpl hpr hne hd1 hd2
    have hlr : l ≠ r := by
      intro he
      rw [he, hpr] at hpl
      exact hne (congrArg PElem.idn (Option.some.inj hpl.symm))
    have hnotTopL : isTopLevelStructureTag l.tag = false := by
      cases ht : l.tag <;> simp_all [isListItemTag, isTopLevelStructureTag]
    have hnotTabL : isAnyTableElementTag l.tag = false := by
      cases ht : l.tag <;> simp_all [isListItemTag, isAnyTableElementTag]
    have hnotTabR : isAnyTableElementTag r.tag = false := by
      cases ht : r.tag <;> simp_all [isListItemTag, isAnyTableElementTag]
    have hnotListL : isAnyListElementTag l.tag = false := by
      cases ht : l.tag <;> simp_all [isListItemTag, isAnyListElementTag]
    unfold inclusiveAncestorJoinerPrepare
    rw [hpl, hpr]
    simp [hnotTopL, hnotTabL, hnotTabR, hnotListL, hlr, hl, hr, hne, hd1, hd2]
  · intro parentOf isDescendantOf l r hl hr hlr hpar
    have hnotTopL : isTopLevelStructureTag l.tag = false := by
      cases ht : l.tag <;> simp_all [isAnyListElementTag, isTopLevelStructureTag]
    have hnotTabL : isAnyTableElementTag l.tag = false := by
      cases ht : l.tag <;> simp_all [isAnyListElementTag, isAnyTableElementTag]
    have hnotTabR : isAnyTableElementTag r.tag = false := by
      cases ht : r.tag <;> simp_all [isListItemTag, isAnyTableElementTag]
    unfold inclusiveAncestorJoinerPrepare
    simp [hnotTopL, hnotTabL, hnotTabR, hlr, hl, hr, hpar]

/-- Witness for C8: two `li` items in two different `ul` lists retarget to the
lists; an `li` whose direct parent is the left `ul` block prepares a no-op. -/
theorem inclusiveAncestorJoinerPrepare_listSpecialCases_witness :
    inclusiveAncestorJoinerPrepare
        (fun n => if n = 1 then some ⟨10, .ul⟩ else
          if n = 2 then some ⟨20, .ul⟩ else none)
        (fun _ _ => false) ⟨1, .li⟩ ⟨2, .li⟩ =
      ⟨true, true, ⟨10, .ul⟩, ⟨20, .ul⟩⟩ ∧
    inclusiveAncestorJoinerPrepare
        (fun n => if n = 2 then some ⟨10, .ul⟩ else none)
        (fun _ _ => false) ⟨10, .ul⟩ ⟨2, .li⟩ =
      ⟨true, false, ⟨10, .ul⟩, ⟨2, .li⟩⟩ :=
  ⟨inclusiveAncestorJoinerPrepare_listSpecialCases.1
      (fun n => if n = 1 then some ⟨10, .ul⟩ else
        if n = 2 then some ⟨20, .ul⟩ else none)
      (fun _ _ => false) ⟨1, .li⟩ ⟨2, .li⟩ ⟨10, .ul⟩ ⟨20, .ul⟩
      rfl rfl rfl rfl (by decide) rfl rfl,
    inclusiveAncestorJoinerPrepare_listSpecialCases.2
      (fun n => if n = 2 then some ⟨10, .ul⟩ else none)
      (fun _ _ => false) ⟨10, .ul⟩ ⟨2, .li⟩ rfl rfl (by decide) rfl⟩

/-- Unfolding equation for the child loop of
`DeleteContentButKeepTableStructure` on a non-empty list. -/
theorem deleteChildrenButKeepTableStructure_cons (c : DOMNode)
    (rest : List DOMNode) :
    deleteChildrenButKeepTableStructure (c :: rest) =
      match deleteContentButKeepTableStructure c with
      | none => deleteChildrenButKeepTableStructure rest
      | some c2 => c2 :: deleteChildrenButKeepTableStructure rest := rfl

/-- Every node surviving `DeleteContentButKeepTableStructure` is a
table-structural element other than `table` itself. -/
theorem deleteContentButKeepTableStructure_some_structural (n m : DOMNode)
    (h : deleteContentButKeepTableStructure n = some m) :
    isAnyTableElementButNotTableNode m = true := by
  cases n with
  | text u v => exact absurd h (by simp [deleteContentButKeepTableStructure,
      isAnyTableElementButNotTableNode])
  | otherData => exact absurd h (by simp [deleteContentButKeepTableStructure,
      isAnyTableElementButNotTableNode])
  | element t ed vis ch =>
      by_cases ht : isAnyTableElementButNotTableTag t = true
      · have hh : deleteContentButKeepTableStructure (.element t ed vis ch) =
            some (.element t ed vis (deleteChildrenButKeepTableStructure ch)) := by
          simp [deleteContentButKeepTableStructure,
            isAnyTableElementButNotTableNode, ht]
        rw [hh] at h
        cases Option.some.inj h
        simpa [isAnyTableElementButNotTableNode] using ht
      · exact absurd h (by simp [deleteContentButKeepTableStructure,
          isAnyTableElementButNotTableNode, ht])

/-- Every node in the output of the child loop comes from some input child
that survived recursively. -/
theorem mem_deleteChildrenButKeepTableStructure (l : List DOMNode)
    (m : DOMNode) (h : m ∈ deleteChildrenButKeepTableStructure l) :
    ∃ c ∈ l, deleteContentButKeepTableStructure c = some m := by
  induction l with
  | nil => exact absurd h (by simp [deleteChildrenButKeepTableStructure])
  | cons c rest ih =>
      rw [deleteChildrenButKeepTableStructure_cons] at h
      cases hc : deleteContentButKeepTableStructure c with
      | none =>
          rw [hc] at h
          obtain ⟨c', hc', hm⟩ := ih h
          exact ⟨c', by simp [hc'], hm⟩
      | some c2 =>
          rw [hc] at h
          rcases List.mem_cons.mp h with h1 | h1
          · exact ⟨c, by simp, by rw [hc, h1]⟩
          · obtain ⟨c', hc', hm⟩ := ih h1
            exact ⟨c', by simp [hc'], hm⟩

/-- Counterexample for C2: a whole `<table>` element collected by the subtree
iterator IS deleted outright (the source tests
`IsAnyTableElementButNotTable`, which excludes `table` itself), even though
`table` is a table-structural node per the claim, so the claimed "recurse
instead of deleting outright for table/row/cell/caption" fails at a `table`
node. -/
theorem deleteContentButKeepTableStructure_counterexample :
    deleteContentButKeepTableStructure
      (.element .table true true
        [.element .tr true true [.element .td true true [.text [97] true]]]) =
      none ∧
    isAnyTableElementTag .table = true := ⟨rfl, rfl⟩

/-- C2 (amended): for a collected node that is a table-structural element
OTHER than `table` itself (row/cell/caption and the section/row-group tags),
the node is not deleted outright: it survives with its children recursively
processed the same way, and everything that survives the recursion is again
table-skeleton material; any other collected node — including a whole
`table` element and any non-table content — is deleted outright in one
`DeleteNodeWithTransaction` call, giving the node-by-node behavior for
ranges that touch no table. -/
theorem deleteContentButKeepTableStructure_amended :
    (∀ (t : HTMLTag) (ed vis : Bool) (children : List DOMNode),
      isAnyTableElementButNotTableTag t = true →
      deleteContentButKeepTableStructure (.element t ed vis children) =
        some (.element t ed vis (deleteChildrenButKeepTableStructure children))) ∧
    (∀ (t : HTMLTag) (ed vis : Bool) (children : List DOMNode),
      isAnyTableElementButNotTableTag t = false →
      deleteContentButKeepTableStructure (.element t ed vis children) = none) ∧
    (∀ (units : List Nat) (vis : Bool),
      deleteContentButKeepTableStructure (.text units vis) = none) ∧
    (∀ (l : List DOMNode) (m : DOMNode),
      m ∈ deleteChildrenButKeepTableStructure l →
      isAnyTableElementButNotTableNode m = true) := by
  refine ⟨?_, ?_, ?_, ?_⟩
  · intro t ed vis children ht
    simp [deleteContentButKeepTableStructure, isAnyTableElementButNotTableNode, ht]
  · intro t ed vis children ht
    simp [deleteContentButKeepTableStructure, isAnyTableElementButNotTableNode, ht]
  · intro units vis
    rfl
  · intro l m hm
    obtain ⟨c, _, hc⟩ := mem_deleteChildrenButKeepTableStructure l m hm
    exact deleteContentButKeepTableStructure_some_structural c m hc

/-- Witness for the amended C2: a `<td>` cell containing text and a nested
`<table>` keeps its cell shell, loses the text outright, loses the nested
whole table outright; a plain `<div>` is deleted outright. -/
theorem deleteContentButKeepTableStructure_amended_witness :
    deleteContentButKeepTableStructure
        (.element .td true true
          [.text [97] true, .element .table true true []]) =
      some (.element .td true true
        (deleteChildrenButKeepTableStructure
          [.text [97] true, .element .table true true []])) ∧
    deleteContentButKeepTableStructure (.element .div true true []) = none ∧
    deleteContentButKeepTableStructure (.text [97] true) = none ∧
    deleteChildrenButKeepTableStructure
        [.text [97] true, .element .table true true []] = [] :=
  ⟨deleteContentButKeepTableStructure_amended.1 .td true true
      [.text [97] true, .element .table true true []] rfl,
    deleteContentButKeepTableStructure_amended.2.1 .div true true [] rfl,
    deleteContentButKeepTableStructure_amended.2.2.1 [97] true,
    rfl⟩

/-- Counterexample for C1: a non-collapsed cross-block deletion (left block a
`<p>`, right block a `<td>`, so the ancestor joiner refuses) reports
canceled, yet the `<div>` fully contained in the range has already been
deleted outright before the join feasibility was checked — the document is
NOT unchanged. -/
theorem handleDeleteNonCollapsedRanges_counterexample :
    (handleDeleteNonCollapsedRangesJoiner false
        [[DOMNode.element .div true true [.text [120] true]]]
        (fun _ => none) (fun _ _ => false) ⟨0, .p⟩ ⟨1, .td⟩).canceled = true ∧
    (handleDeleteNonCollapsedRangesJoiner false
        [[DOMNode.element .div true true [.text [120] true]]]
        (fun _ => none) (fun _ _ => false) ⟨0, .p⟩ ⟨1, .td⟩).deletedOutright =
      [DOMNode.element .div true true [.text [120] true]] ∧
    DOMNode.element .div true true [.text [120] true] ::
        ([] : List DOMNode) ≠ [] :=
  ⟨rfl, rfl, List.cons_ne_nil _ _⟩

/-- C1 (amended): once every range's needs-join flag is true and the ancestor
joiner's `Prepare` reports the two blocks cannot be joined, the operation
reports canceled (and handled) and skips the join — but the nodes fully
contained in the ranges have already been deleted (the deletion list is the
same whether or not the join is feasible), and the selection is afterwards
collapsed to the deletion boundary by
`DeleteUnnecessaryNodesAndCollapseSelection`, not restored. -/
theorem handleDeleteNonCollapsedRanges_amended (selectionWasCollapsed : Bool)
    (ranges : List (List DOMNode)) (parentOf : Nat → Option PElem)
    (isDescendantOf : Nat → Nat → Bool) (leftContent rightContent : PElem)
    (hJoinAll : ranges.all
      (fun l => needsToJoinNodesAfterDelete selectionWasCollapsed l) = true)
    (hCannot : (inclusiveAncestorJoinerPrepare parentOf isDescendantOf
        leftContent rightContent).canJoinThem = false) :
    handleDeleteNonCollapsedRangesJoiner selectionWasCollapsed ranges parentOf
        isDescendantOf leftContent rightContent =
      ⟨ranges.flatten.filter
          (fun n => (deleteContentButKeepTableStructure n).isNone),
        true, false, true, true⟩ := by
  unfold handleDeleteNonCollapsedRangesJoiner
  simp [hJoinAll, hCannot]

/-- Witness for the amended C1: the cross-block scenario with a `<td>` right
block cancels while the collected `<div>` is in the deletion list. -/
theorem handleDeleteNonCollapsedRanges_amended_witness :
    handleDeleteNonCollapsedRangesJoiner false
        [[DOMNode.element .div true true [.text [120] true]]]
        (fun _ => none) (fun _ _ => false) ⟨0, .p⟩ ⟨1, .td⟩ =
      ⟨[[DOMNode.element .div true true [.text [120] true]]].flatten.filter
          (fun n => (deleteContentButKeepTableStructure n).isNone),
        true, false, true, true⟩ :=
  handleDeleteNonCollapsedRanges_amended false
    [[DOMNode.element .div true true [.text [120] true]]]
    (fun _ => none) (fun _ _ => false) ⟨0, .p⟩ ⟨1, .td⟩ rfl rfl

/-- Helper: last element of a cons list. -/
theorem blockChain_getLast?_cons (a : BlockCandidate) (l : List BlockCandidate) :
    (a :: l).getLast? = if l = [] then some a else l.getLast? := by
  cases l with
  | nil => simp
  | cons x xs => simp [List.getLast?_cons_cons]

/-- Helper: a list with a known last element splits off that element. -/
theorem blockChain_getLast?_eq_some_append (l : List BlockCandidate)
    (b : BlockCandidate) (h : l.getLast? = some b) : ∃ pre, l = pre ++ [b] := by
  induction l with
  | nil => exact absurd h (by simp)
  | cons a rest ih =>
      cases rest with
      | nil =>
          simp only [List.getLast?_singleton, Option.some.injEq] at h
          exact ⟨[], by simp [h]⟩
      | cons x xs =>
          rw [List.getLast?_cons_cons] at h
          obtain ⟨pre, hp⟩ := ih h
          exact ⟨a :: pre, by simp [hp]⟩

/-- Characterization of the climb loop: it returns the last element of the
maximal prefix of the ancestor chain satisfying the loop condition, or the
accumulator if that prefix is empty. -/
theorem scanEmptyBlockLoop_eq (chain : List BlockCandidate) :
    ∀ acc, scanEmptyBlockLoop chain acc =
      if chain.takeWhile emptyBlockLoopCond = [] then acc
      else (chain.takeWhile emptyBlockLoopCond).getLast? := by
  induction chain with
  | nil => intro acc; simp [scanEmptyBlockLoop]
  | cons b rest ih =>
      intro acc
      by_cases hb : emptyBlockLoopCond b = true
      · rw [scanEmptyBlockLoop, if_pos hb, ih (some b),
          List.takeWhile_cons_of_pos hb]
        by_cases hrest : rest.takeWhile emptyBlockLoopCond = []
        · simp [hrest]
        · simp only [hrest, if_false, List.cons_ne_nil, if_neg,
            blockChain_getLast?_cons]
      · rw [scanEmptyBlockLoop, if_neg (by simpa using hb),
          List.takeWhile_cons_of_neg (by simpa using hb)]
        simp

/-- C9: whenever the empty-ancestor scan selects a block, that block is
empty, editable, removable and not table-structural, has a parent element,
lies on the supplied chain of editable block ancestors (so the scan never
leaves the editing host's editable ancestor chain), and is the TOPMOST
element of the maximal consecutive run of qualifying ancestors starting at
the innermost one; the deleter's run then removes exactly that single
element (one `DeleteNodeWithTransaction` call), taking every nested empty
descendant with it.  The scan itself is structural recursion on the finite
ancestor chain, hence always terminates. -/
theorem scanEmptyBlockInclusiveAncestor_spec (chain : List BlockCandidate)
    (b : BlockCandidate) (h : scanEmptyBlockInclusiveAncestor chain = some b) :
    b.emptyNode = true ∧ b.editable = true ∧ b.removableFromParent = true ∧
    b.anyTableElement = false ∧ b.hasParentElement = true ∧
    b ∈ chain ∧
    (∃ pre, chain.takeWhile emptyBlockLoopCond = pre ++ [b]) ∧
    emptyBlockAncestorDeleterRun chain = [b] := by
  have hrun : emptyBlockAncestorDeleterRun chain = [b] := by
    unfold emptyBlockAncestorDeleterRun
    rw [h]
  unfold scanEmptyBlockInclusiveAncestor at h
  cases hloop : scanEmptyBlockLoop chain none with
  | none => rw [hloop] at h; simp at h
  | some found =>
      rw [hloop] at h
      dsimp only at h
      split_ifs at h with hef
      cases Option.some.inj h
      simp only [Bool.or_eq_true, Bool.not_eq_true', not_or] at hef
      obtain ⟨hed, hpar⟩ := hef
      have hloop2 := (scanEmptyBlockLoop_eq chain none).symm.trans hloop
      by_cases htw : chain.takeWhile emptyBlockLoopCond = []
      · rw [if_pos htw] at hloop2
        exact absurd hloop2 (by simp)
      · rw [if_neg htw] at hloop2
        obtain ⟨pre, hpre⟩ :=
          blockChain_getLast?_eq_some_append _ _ hloop2
        have hmemtw : b ∈ chain.takeWhile emptyBlockLoopCond := by
          rw [hpre]; simp
        have hcond : emptyBlockLoopCond b = true :=
          List.mem_takeWhile_imp hmemtw
        have hmem : b ∈ chain := by
          have := List.takeWhile_append_dropWhile
            (p := emptyBlockLoopCond) (l := chain)
          rw [← this]
          exact List.mem_append.mpr (Or.inl hmemtw)
        unfold emptyBlockLoopCond at hcond
        simp only [Bool.and_eq_true, Bool.not_eq_true'] at hcond
        exact ⟨hcond.2, by simpa using hed, hcond.1.1, hcond.1.2,
          by simpa using hpar, hmem, ⟨pre, hpre⟩, hrun⟩

/-- Witness for C9: a one-element ancestor chain holding an empty, editable,
removable, non-table block with a parent is selected and is the single
deleted element. -/
theorem scanEmptyBlockInclusiveAncestor_spec_witness :
    (⟨true, true, false, true, true⟩ : BlockCandidate).emptyNode = true ∧
    (⟨true, true, false, true, true⟩ : BlockCandidate).editable = true ∧
    (⟨true, true, false, true, true⟩ : BlockCandidate).removableFromParent = true ∧
    (⟨true, true, false, true, true⟩ : BlockCandidate).anyTableElement = false ∧
    (⟨true, true, false, true, true⟩ : BlockCandidate).hasParentElement = true ∧
    (⟨true, true, false, true, true⟩ : BlockCandidate) ∈
      [(⟨true, true, false, true, true⟩ : BlockCandidate)] ∧
    (∃ pre, [(⟨true, true, false, true, true⟩ : BlockCandidate)].takeWhile
        emptyBlockLoopCond = pre ++ [⟨true, true, false, true, true⟩]) ∧
    emptyBlockAncestorDeleterRun
        [(⟨true, true, false, true, true⟩ : BlockCandidate)] =
      [⟨true, true, false, true, true⟩] :=
  scanEmptyBlockInclusiveAncestor_spec
    [⟨true, true, false, true, true⟩] ⟨true, true, false, true, true⟩ rfl
